import Mathlib

/-!
Shallow embedding of `src/bot.py` (Telegram global poster bot), covering the
broadcast delivery engine (`send_to_all_groups`), the entities helpers
(`_ent_to_dict`, `_build_entities_from_store`), the keyboard builder
(`build_keyboard`), job scheduling (`reschedule_job` and the menu/DM
handlers that drive it), and the group add/remove handler
(`owner_dm_handler`, `set_groups` mode).

Conventions of the embedding:
- The settings dict `store` becomes the structure `Store`; Python `None`
  becomes `Option.none`.
- A template dict's `chat_id` / `message_id` are modelled as `Int`; a
  missing or null id is modelled as `0` (all three are falsy in Python, and
  the code only tests them for truthiness).
- Bot API calls are effects: each call is recorded as an `Event.send` with
  the recipient, the kind of call, the keyboard argument passed, and the
  outcome the environment produced for it.  `asyncio.sleep(x)` is recorded
  as `Event.sleep` with the duration in tenths of a second (so `sleep(0.5)`
  is `Event.sleep 5` and `sleep(int(e.retry_after) + 1)` is
  `Event.sleep ((r + 1) * 10)`).  `save_store()` would be recorded as
  `Event.persistWrite`; `send_to_all_groups` never performs it.
- The network's behaviour is an oracle `Env`: for a recipient, a kind of
  call and an attempt index (0 = first try, 1 = the retry after a
  rate-limit), it yields the call's outcome.  `Outcome.ok` models a normal
  return, `Outcome.rateLimited r` models `RetryAfter` with
  `int(e.retry_after) = r`, `Outcome.netError` models `TimedOut` /
  `NetworkError`, and `Outcome.permError` models any other exception.
- `send_to_all_groups` returns the event trace together with the store it
  leaves behind; the Python body contains no assignment to `store` and no
  `save_store()` call, so the translation threads the store through
  unchanged.
-/

namespace TelegramAuto

/-- A stored rich-text span dict, as produced by `_ent_to_dict` or read back
from `global_settings.json`; `d.get(k)` on a missing or null key is `none`. -/
structure EntDict where
  type : Option String
  offset : Option Nat
  length : Option Nat
  url : Option String
  language : Option String
  custom_emoji_id : Option String
deriving DecidableEq

/-- A `telegram.MessageEntity` as the code uses it: the constructor stores
exactly what it is given (`type` may be `None` when rebuilt from a dict with
no `"type"` key, hence `Option String`). -/
structure MessageEntity where
  type : Option String
  offset : Nat
  length : Nat
  url : Option String
  language : Option String
  custom_emoji_id : Option String
deriving DecidableEq

/-- `_ent_to_dict(e)`: the dict `{"type": e.type, "offset": e.offset,
"length": e.length, "url": e.url, "language": e.language,
"custom_emoji_id": e.custom_emoji_id}`. -/
def _ent_to_dict (e : MessageEntity) : EntDict :=
  { type := e.type
    offset := some e.offset
    length := some e.length
    url := e.url
    language := e.language
    custom_emoji_id := e.custom_emoji_id }

/-- The `MessageEntity(...)` rebuilt from one stored dict inside
`_build_entities_from_store`: `type=d.get("type")`, `offset=d.get("offset", 0)`,
`length=d.get("length", 0)`, `url=d.get("url")`, `language=d.get("language")`,
`custom_emoji_id=d.get("custom_emoji_id")`. -/
def _build_entity (d : EntDict) : MessageEntity :=
  { type := d.type
    offset := d.offset.getD 0
    length := d.length.getD 0
    url := d.url
    language := d.language
    custom_emoji_id := d.custom_emoji_id }

/-- `_build_entities_from_store()`: rebuild one `MessageEntity` per stored
dict, in order. -/
def _build_entities_from_store (ents : List EntDict) : List MessageEntity :=
  ents.map _build_entity

/-- One item of the stored `buttons` list: either a `[label, url]` pair, a
row `[[label, url], ...]` (a list whose first element is itself a list), or
anything else (which `build_keyboard` skips via its `except: continue`). -/
inductive BtnItem where
  | pair (label url : String)
  | rowOf (cells : List (String × String))
  | bad
deriving DecidableEq

/-- An `InlineKeyboardMarkup`: rows of `(label, url)` buttons. -/
abbrev Keyboard := List (List (String × String))

/-- The rows accumulated by `build_keyboard`'s loop: a row item contributes
its cells as one row, a pair contributes a singleton row, anything else is
skipped. -/
def keyboardRows (btns : List BtnItem) : List (List (String × String)) :=
  btns.foldr
    (fun item acc =>
      match item with
      | BtnItem.pair l u => [(l, u)] :: acc
      | BtnItem.rowOf cells => cells :: acc
      | BtnItem.bad => acc)
    []

/-- `build_keyboard()`: `None` when the buttons list is empty or yields no
rows, otherwise the markup of the accumulated rows. -/
def build_keyboard (btns : List BtnItem) : Option Keyboard :=
  if keyboardRows btns = [] then none else some (keyboardRows btns)

/-- The stored `template` dict: `{"chat_id": ..., "message_id": ...}`. -/
structure Template where
  chat_id : Int
  message_id : Int
deriving DecidableEq

/-- The settings store (`global_settings.json` after `load_store`), with the
shape `load_store` guarantees. -/
structure Store where
  message : String
  seconds : Nat
  enabled : Bool
  groups : List Int
  buttons : List BtnItem
  photo : Option String
  entities : List EntDict
  template : Option Template
  template_has_keyboard : Bool
  use_forward : Bool
deriving DecidableEq

/-- The kinds of outgoing bot API calls the broadcaster makes. -/
inductive SendKind where
  | sendText
  | sendPhoto
  | copyMsg
  | forwardMsg
  | followupButtons
deriving DecidableEq

/-- Outcome of one bot API call: normal return, `RetryAfter` (with
`int(e.retry_after)`), `TimedOut`/`NetworkError`, or any other exception. -/
inductive Outcome where
  | ok
  | rateLimited (retryAfter : Nat)
  | netError
  | permError
deriving DecidableEq

/-- Observable effects of a cycle.  `sleep` durations are in tenths of a
second.  `persistWrite` models `save_store()`. -/
inductive Event where
  | send (gid : Int) (kind : SendKind) (kb : Option Keyboard) (outcome : Outcome)
  | sleep (tenths : Nat)
  | persistWrite
deriving DecidableEq

/-- The environment: outcome of the `i`-th attempt (0 = first try, 1 = the
retry after a rate limit) of a given kind of call to a given recipient,
within one cycle. -/
def Env := Int → SendKind → Nat → Outcome

/-- Helper for `dedupKeepFirst`: keep each element not yet seen, in order,
accumulating the set of seen elements. -/
def dedupAux (seen : List Int) : List Int → List Int
  | [] => []
  | x :: xs => if x ∈ seen then dedupAux seen xs else x :: dedupAux (x :: seen) xs

/-- `list(dict.fromkeys(xs))`: remove duplicates keeping the first
occurrence of each element, preserving first-occurrence order. -/
def dedupKeepFirst (l : List Int) : List Int :=
  dedupAux [] l

/-- One `forward_message` attempt for one recipient, together with the
conditional followup invisible-text buttons message (`if kb:` — the
followup's own failure is swallowed by the inner `except`), mirroring the
forward branch of the `try` body.  Returns the emitted events and whether
the `forward_message` call itself raised. -/
def forwardAttempt (kb : Option Keyboard) (env : Env) (gid : Int) (i : Nat) :
    List Event × Outcome :=
  match env gid SendKind.forwardMsg i with
  | Outcome.ok =>
      match kb with
      | some k =>
          ([Event.send gid SendKind.forwardMsg none Outcome.ok,
            Event.send gid SendKind.followupButtons (some k)
              (env gid SendKind.followupButtons i)],
           Outcome.ok)
      | none => ([Event.send gid SendKind.forwardMsg none Outcome.ok], Outcome.ok)
  | a => ([Event.send gid SendKind.forwardMsg none a], a)

/-- One `copy_message(..., reply_markup=kb)` attempt for one recipient. -/
def copyAttempt (kb : Option Keyboard) (env : Env) (gid : Int) (i : Nat) :
    List Event × Outcome :=
  ([Event.send gid SendKind.copyMsg kb (env gid SendKind.copyMsg i)],
   env gid SendKind.copyMsg i)

/-- One fallback-branch attempt for one recipient: `send_photo` when a photo
is stored, else `send_message`, both with `reply_markup=kb`. -/
def fallbackAttempt (hasPhoto : Bool) (kb : Option Keyboard) (env : Env)
    (gid : Int) (i : Nat) : List Event × Outcome :=
  let kind := if hasPhoto then SendKind.sendPhoto else SendKind.sendText
  ([Event.send gid kind kb (env gid kind i)], env gid kind i)

/-- The per-recipient `try/except` skeleton shared by both loops of
`send_to_all_groups`: run the attempt; on `RetryAfter r` sleep `r + 1`
seconds and run the attempt once more (its own failure caught by
`except Exception`); on `TimedOut`/`NetworkError` sleep 1 second; on any
other exception just log; then the trailing `await asyncio.sleep(0.5)`. -/
def recipientLoop (att : Nat → List Event × Outcome) : List Event :=
  (match (att 0).2 with
   | Outcome.ok => (att 0).1
   | Outcome.rateLimited r =>
       (att 0).1 ++ [Event.sleep ((r + 1) * 10)] ++ (att 1).1
   | Outcome.netError => (att 0).1 ++ [Event.sleep 10]
   | Outcome.permError => (att 0).1)
  ++ [Event.sleep 5]

/-- Line 277/280: `tpl = store.get("template") if isinstance(..., dict) else
None`, then `if tpl and tpl.get("chat_id") and tpl.get("message_id")` — the
template branch runs only when both ids are truthy. -/
def templateActive (s : Store) : Option Template :=
  match s.template with
  | some t => if t.chat_id ≠ 0 ∧ t.message_id ≠ 0 then some t else none
  | none => none

/-- The attempt function a given store selects for one recipient: forward or
copy when a template is active (by `use_forward`), else the stored
text/photo fallback. -/
def attemptOf (s : Store) (env : Env) (gid : Int) : Nat → List Event × Outcome :=
  match templateActive s with
  | some _ =>
      if s.use_forward then forwardAttempt (build_keyboard s.buttons) env gid
      else copyAttempt (build_keyboard s.buttons) env gid
  | none => fallbackAttempt s.photo.isSome (build_keyboard s.buttons) env gid

/-- The whole loop body of `send_to_all_groups` for one recipient. -/
def handleRecipient (s : Store) (env : Env) (gid : Int) : List Event :=
  recipientLoop (attemptOf s env gid)

/-- `send_to_all_groups(context)`: return immediately when not enabled;
otherwise iterate `list(dict.fromkeys(store.get("groups", [])))` and run the
per-recipient body.  The function contains no assignment to `store` and no
`save_store()`, so it returns the store unchanged alongside the trace. -/
def send_to_all_groups (s : Store) (env : Env) : List Event × Store :=
  if s.enabled then
    ((dedupKeepFirst s.groups).flatMap (handleRecipient s env), s)
  else ([], s)

/-- The kind of the primary delivery call the store selects. -/
def deliveryKind (s : Store) : SendKind :=
  match templateActive s with
  | some _ => if s.use_forward then SendKind.forwardMsg else SendKind.copyMsg
  | none => if s.photo.isSome then SendKind.sendPhoto else SendKind.sendText

/-- The keyboard argument the primary delivery call carries
(`forward_message` takes none; the others take `build_keyboard()`). -/
def deliveryKb (s : Store) : Option Keyboard :=
  match templateActive s with
  | some _ => if s.use_forward then none else build_keyboard s.buttons
  | none => build_keyboard s.buttons

/-- Is this event a bot API send call (of any kind)? -/
def isSendEvent : Event → Bool
  | Event.send _ _ _ _ => true
  | _ => false

/-- Is this event a primary delivery call (not the followup-buttons
message) addressed to `g`? -/
def isDeliveryTo (g : Int) : Event → Bool
  | Event.send _ SendKind.followupButtons _ _ => false
  | Event.send gid _ _ _ => gid = g
  | _ => false

/-- Number of primary delivery calls to `g` in a trace. -/
def attemptsTo (tr : List Event) (g : Int) : Nat :=
  tr.countP (isDeliveryTo g)

/-- Sanity predicate on the events a single recipient's body may emit: only
sends addressed to that recipient, and sleeps — never a persistence write. -/
def eventOkFor (g : Int) : Event → Prop
  | Event.send gid _ _ _ => gid = g
  | Event.sleep _ => True
  | Event.persistWrite => False

-- ---------------- Job scheduling ----------------

/-- One registered job of the `JobQueue` (`run_repeating(...)`): its name,
repeat interval in seconds, and `first` offset in seconds. -/
structure Job where
  name : String
  interval : Nat
  first : Nat
deriving DecidableEq

/-- The application state the scheduling code manipulates: the settings
store plus the job queue's registered jobs. -/
structure AppState where
  store : Store
  jobs : List Job
deriving DecidableEq

/-- `reschedule_job(app)`: remove every job named `"GLOBAL_POSTER"`; when
enabled, register `run_repeating(send_to_all_groups,
interval=store.get("seconds", 900), first=0, name="GLOBAL_POSTER")`. -/
def reschedule_job (st : AppState) : AppState :=
  let jobs' := st.jobs.filter (fun j => j.name ≠ "GLOBAL_POSTER")
  if st.store.enabled then
    { st with jobs := jobs' ++ [{ name := "GLOBAL_POSTER", interval := st.store.seconds, first := 0 }] }
  else
    { st with jobs := jobs' }

/-- Menu callback `m:enable`: `store["enabled"] = True; save_store();
reschedule_job(...)`. -/
def menu_enable (st : AppState) : AppState :=
  reschedule_job { st with store := { st.store with enabled := true } }

/-- Menu callback `m:disable`: `store["enabled"] = False; save_store();
reschedule_job(...)`. -/
def menu_disable (st : AppState) : AppState :=
  reschedule_job { st with store := { st.store with enabled := false } }

/-- `owner_dm_handler`, `set_interval` mode: reject intervals below 10
seconds (the handler raises and changes nothing), otherwise
`store["seconds"] = secs; save_store(); reschedule_job(...)`. -/
def set_interval_action (st : AppState) (secs : Nat) : AppState :=
  if secs < 10 then st
  else reschedule_job { st with store := { st.store with seconds := secs } }

-- ---------------- Group membership (owner_dm_handler, set_groups) ----------------

/-- One line of the `set_groups` input once resolved to a chat id: either an
add (`gid not in groups → append`) or a remove (prefix `-`). -/
inductive GroupOp where
  | add (gid : Int)
  | remove (gid : Int)
deriving DecidableEq

/-- Adding one resolved chat id: `if gid not in store["groups"]:
store["groups"].append(gid)`. -/
def addGroup (groups : List Int) (gid : Int) : List Int :=
  if gid ∈ groups then groups else groups ++ [gid]

/-- Removing one resolved chat id: `if gid in store["groups"]:
store["groups"].remove(gid)` (Python `list.remove` deletes the first
occurrence). -/
def removeGroup (groups : List Int) (gid : Int) : List Int :=
  if gid ∈ groups then groups.erase gid else groups

/-- Apply one membership mutation. -/
def applyOp (groups : List Int) : GroupOp → List Int
  | GroupOp.add gid => addGroup groups gid
  | GroupOp.remove gid => removeGroup groups gid

/-- Apply the lines of a `set_groups` message in order. -/
def applyOps (groups : List Int) (ops : List GroupOp) : List Int :=
  ops.foldl applyOp groups

-- ---------------- Concrete fixtures used by witnesses ----------------

/-- A store with the default shape (`DEFAULTS` in the source): disabled,
15-minute interval, no template, no photo, no buttons. -/
def storeBase : Store :=
  { message := "Hello! Scheduled message"
    seconds := 900
    enabled := false
    groups := [-100123, -100456]
    buttons := []
    photo := none
    entities := []
    template := none
    template_has_keyboard := false
    use_forward := false }

/-- An environment where every call returns normally. -/
def envAllOk : Env := fun _ _ _ => Outcome.ok

/-- Enabled store with recipients `[1, 2, 3]`, used with `envC2`. -/
def storeC2 : Store := { storeBase with enabled := true, groups := [1, 2, 3] }

/-- Environment where the first call to recipient 2 is rate-limited with
`retry_after = 5`, and everything else succeeds. -/
def envC2 : Env := fun g _ i =>
  if g = 2 ∧ i = 0 then Outcome.rateLimited 5 else Outcome.ok

/-- Enabled store with recipients `[1, 2]`, used with `envPermA`. -/
def storeC3 : Store := { storeBase with enabled := true, groups := [1, 2] }

/-- Environment where recipient 1's first call raises a permanent
(non-rate-limit, non-network) error, and everything else succeeds. -/
def envPermA : Env := fun g _ i =>
  if g = 1 ∧ i = 0 then Outcome.permError else Outcome.ok

/-- The keyboard `build_keyboard` produces for one `Open` button. -/
def kbC4 : Keyboard := [[("Open", "https://a.com")]]

/-- Copy-mode store whose captured template already carries its own inline
keyboard (`template_has_keyboard = true`) while configured buttons exist. -/
def storeC4 : Store :=
  { message := ""
    seconds := 900
    enabled := true
    groups := [777]
    buttons := [BtnItem.pair "Open" "https://a.com"]
    photo := none
    entities := []
    template := some { chat_id := 123, message_id := 45 }
    template_has_keyboard := true
    use_forward := false }

/-- The same store in forward mode. -/
def storeC4fwd : Store := { storeC4 with use_forward := true }

/-- Enabled store whose groups list contains a duplicate. -/
def storeC8 : Store := { storeBase with enabled := true, groups := [5, 7, 5] }

-- ---------------- Lemmas about dedupKeepFirst ----------------

theorem mem_dedupAux (a : Int) :
    ∀ (l seen : List Int), a ∈ dedupAux seen l ↔ a ∈ l ∧ a ∉ seen := by
  intro l
  induction l with
  | nil => intro seen; simp [dedupAux]
  | cons x xs ih =>
    intro seen
    by_cases hx : x ∈ seen
    · rw [dedupAux, if_pos hx, ih]
      constructor
      · rintro ⟨hm, hs⟩
        exact ⟨List.mem_cons_of_mem _ hm, hs⟩
      · rintro ⟨hm, hs⟩
        rcases List.mem_cons.mp hm with rfl | hm
        · exact absurd hx hs
        · exact ⟨hm, hs⟩
    · rw [dedupAux, if_neg hx]
      by_cases hax : a = x
      · subst hax
        simp [hx]
      · rw [List.mem_cons]
        simp only [hax, false_or]
        rw [ih]
        constructor
        · rintro ⟨hm, hs⟩
          exact ⟨List.mem_cons_of_mem _ hm, fun hc => hs (List.mem_cons_of_mem _ hc)⟩
        · rintro ⟨hm, hs⟩
          have hm' : a ∈ xs := by
            rcases List.mem_cons.mp hm with rfl | hm'
            · exact absurd rfl hax
            · exact hm'
          refine ⟨hm', fun hc => ?_⟩
          rcases List.mem_cons.mp hc with rfl | hc
          · exact hax rfl
          · exact hs hc

theorem nodup_dedupAux : ∀ (l seen : List Int), (dedupAux seen l).Nodup := by
  intro l
  induction l with
  | nil => intro seen; simp [dedupAux]
  | cons x xs ih =>
    intro seen
    by_cases hx : x ∈ seen
    · rw [dedupAux, if_pos hx]; exact ih seen
    · rw [dedupAux, if_neg hx]
      refine List.nodup_cons.mpr ⟨fun hc => ?_, ih (x :: seen)⟩
      have := (mem_dedupAux x xs (x :: seen)).mp hc
      exact this.2 (List.mem_cons_self x seen)

theorem pairwise_dedupAux :
    ∀ (l seen : List Int),
      (dedupAux seen l).Pairwise (fun a b => l.indexOf a < l.indexOf b) := by
  intro l
  induction l with
  | nil => intro seen; simp [dedupAux]
  | cons x xs ih =>
    intro seen
    by_cases hx : x ∈ seen
    · rw [dedupAux, if_pos hx]
      refine (ih seen).imp_of_mem ?_
      intro a b ha hb hlt
      have hax : a ≠ x := by
        intro h; subst h
        exact ((mem_dedupAux a xs seen).mp ha).2 hx
      have hbx : b ≠ x := by
        intro h; subst h
        exact ((mem_dedupAux b xs seen).mp hb).2 hx
      rw [List.indexOf_cons_ne _ (Ne.symm hax), List.indexOf_cons_ne _ (Ne.symm hbx)]
      exact Nat.succ_lt_succ hlt
    · rw [dedupAux, if_neg hx]
      refine List.pairwise_cons.mpr ⟨?_, ?_⟩
      · intro b hb
        have hbx : b ≠ x :=
          fun h => (((mem_dedupAux b xs (x :: seen)).mp hb).2 (h ▸ List.mem_cons_self x seen))
        rw [List.indexOf_cons_self, List.indexOf_cons_ne _ (Ne.symm hbx)]
        exact Nat.succ_pos _
      · refine (ih (x :: seen)).imp_of_mem ?_
        intro a b ha hb hlt
        have hax : a ≠ x :=
          fun h => (((mem_dedupAux a xs (x :: seen)).mp ha).2 (h ▸ List.mem_cons_self x seen))
        have hbx : b ≠ x :=
          fun h => (((mem_dedupAux b xs (x :: seen)).mp hb).2 (h ▸ List.mem_cons_self x seen))
        rw [List.indexOf_cons_ne _ (Ne.symm hax), List.indexOf_cons_ne _ (Ne.symm hbx)]
        exact Nat.succ_lt_succ hlt

theorem mem_dedupKeepFirst (a : Int) (l : List Int) :
    a ∈ dedupKeepFirst l ↔ a ∈ l := by
  rw [dedupKeepFirst, mem_dedupAux]
  simp

theorem nodup_dedupKeepFirst (l : List Int) : (dedupKeepFirst l).Nodup :=
  nodup_dedupAux l []

theorem pairwise_dedupKeepFirst (l : List Int) :
    (dedupKeepFirst l).Pairwise (fun a b => l.indexOf a < l.indexOf b) :=
  pairwise_dedupAux l []

-- ---------------- Lemmas about the per-recipient body ----------------

theorem attemptOf_snd (s : Store) (env : Env) (g : Int) (i : Nat) :
    (attemptOf s env g i).2 = env g (deliveryKind s) i := by
  cases htpl : templateActive s with
  | some t =>
    cases hf : s.use_forward
    · simp [attemptOf, deliveryKind, htpl, hf, copyAttempt]
    · cases ho : env g SendKind.forwardMsg i <;>
        cases hkb : build_keyboard s.buttons <;>
          simp [attemptOf, deliveryKind, htpl, hf, forwardAttempt, ho, hkb]
  | none =>
    cases hp : s.photo.isSome <;>
      simp [attemptOf, deliveryKind, htpl, fallbackAttempt, hp]

theorem attemptOf_fst (s : Store) (env : Env) (g : Int) (i : Nat) :
    ∃ tail,
      (attemptOf s env g i).1
          = Event.send g (deliveryKind s) (deliveryKb s)
              (env g (deliveryKind s) i) :: tail
        ∧ tail.countP (isDeliveryTo g) = 0
        ∧ (∀ e ∈ tail, eventOkFor g e)
        ∧ (env g (deliveryKind s) i ≠ Outcome.ok → tail = []) := by
  cases htpl : templateActive s with
  | some t =>
    cases hf : s.use_forward
    · refine ⟨[], ?_, by simp, by simp, fun _ => rfl⟩
      simp [attemptOf, deliveryKind, deliveryKb, htpl, hf, copyAttempt]
    · cases ho : env g SendKind.forwardMsg i with
      | ok =>
        cases hkb : build_keyboard s.buttons with
        | none =>
          refine ⟨[], ?_, by simp, by simp, fun _ => rfl⟩
          simp [attemptOf, deliveryKind, deliveryKb, htpl, hf, forwardAttempt, ho, hkb]
        | some k =>
          refine ⟨[Event.send g SendKind.followupButtons (some k)
              (env g SendKind.followupButtons i)], ?_, ?_, ?_, ?_⟩
          · simp [attemptOf, deliveryKind, deliveryKb, htpl, hf, forwardAttempt, ho, hkb]
          · simp [List.countP_cons, isDeliveryTo]
          · intro e he
            rw [List.mem_singleton] at he
            subst he
            exact rfl
          · intro hne
            exfalso
            apply hne
            simp [deliveryKind, htpl, hf, ho]
      | rateLimited r =>
        refine ⟨[], ?_, by simp, by simp, fun _ => rfl⟩
        simp [attemptOf, deliveryKind, deliveryKb, htpl, hf, forwardAttempt, ho]
      | netError =>
        refine ⟨[], ?_, by simp, by simp, fun _ => rfl⟩
        simp [attemptOf, deliveryKind, deliveryKb, htpl, hf, forwardAttempt, ho]
      | permError =>
        refine ⟨[], ?_, by simp, by simp, fun _ => rfl⟩
        simp [attemptOf, deliveryKind, deliveryKb, htpl, hf, forwardAttempt, ho]
  | none =>
    refine ⟨[], ?_, by simp, by simp, fun _ => rfl⟩
    cases hp : s.photo.isSome <;>
      simp [attemptOf, deliveryKind, deliveryKb, htpl, fallbackAttempt, hp]

theorem deliveryKind_ne_followup (s : Store) :
    deliveryKind s ≠ SendKind.followupButtons := by
  cases h : templateActive s <;> simp only [deliveryKind, h] <;> split <;> simp

theorem isDeliveryTo_send (g gid : Int) (K : SendKind) (kb : Option Keyboard)
    (o : Outcome) (hK : K ≠ SendKind.followupButtons) :
    isDeliveryTo g (Event.send gid K kb o) = decide (gid = g) := by
  cases K
  case followupButtons => exact absurd rfl hK
  all_goals rfl

theorem recipientLoop_events (att : Nat → List Event × Outcome) (g : Int)
    (h : ∀ i, ∀ e ∈ (att i).1, eventOkFor g e) :
    ∀ e ∈ recipientLoop att, eventOkFor g e := by
  intro e he
  have hsleep : ∀ t : Nat, eventOkFor g (Event.sleep t) := fun _ => trivial
  unfold recipientLoop at he
  cases ho : (att 0).2 <;> simp only [ho] at he <;>
    simp only [List.mem_append, List.mem_singleton] at he
  · rcases he with he | rfl
    · exact h 0 e he
    · exact hsleep _
  · rcases he with ((he | rfl) | he) | rfl
    · exact h 0 e he
    · exact hsleep _
    · exact h 1 e he
    · exact hsleep _
  · rcases he with (he | rfl) | rfl
    · exact h 0 e he
    · exact hsleep _
    · exact hsleep _
  · rcases he with he | rfl
    · exact h 0 e he
    · exact hsleep _

theorem attemptOf_events (s : Store) (env : Env) (g : Int) (i : Nat) :
    ∀ e ∈ (attemptOf s env g i).1, eventOkFor g e := by
  obtain ⟨tail, h1, _, h3, _⟩ := attemptOf_fst s env g i
  intro e he
  rw [h1] at he
  rcases List.mem_cons.mp he with rfl | he
  · exact rfl
  · exact h3 e he

theorem handleRecipient_events (s : Store) (env : Env) (g : Int) :
    ∀ e ∈ handleRecipient s env g, eventOkFor g e :=
  recipientLoop_events _ g (fun i => attemptOf_events s env g i)

theorem handleRecipient_countP_ne (s : Store) (env : Env) (g g' : Int)
    (hne : g' ≠ g) :
    (handleRecipient s env g).countP (isDeliveryTo g') = 0 := by
  rw [List.countP_eq_zero]
  intro e he
  have hok := handleRecipient_events s env g e he
  have hne' : g ≠ g' := Ne.symm hne
  cases e with
  | send gid kind kb o =>
    have hg : gid = g := hok
    subst hg
    cases kind <;> simp [isDeliveryTo, hne']
  | sleep t => simp [isDeliveryTo]
  | persistWrite => simp [isDeliveryTo]

theorem mem_handleRecipient_first (s : Store) (env : Env) (g : Int) :
    Event.send g (deliveryKind s) (deliveryKb s) (env g (deliveryKind s) 0)
      ∈ handleRecipient s env g := by
  obtain ⟨tail, h1, _, _, _⟩ := attemptOf_fst s env g 0
  unfold handleRecipient recipientLoop
  cases ho : (attemptOf s env g 0).2 <;>
    simp [h1, List.mem_append]

theorem filter_gp_of_filter_ne (js : List Job) :
    (js.filter (fun j => j.name ≠ "GLOBAL_POSTER")).filter
        (fun j => j.name = "GLOBAL_POSTER") = [] := by
  induction js with
  | nil => rfl
  | cons j js ih =>
    by_cases h : j.name = "GLOBAL_POSTER" <;> simp [List.filter_cons, h, ih]

theorem applyOp_nodup (g : List Int) (op : GroupOp) (h : g.Nodup) :
    (applyOp g op).Nodup := by
  cases op with
  | add gid =>
    by_cases hmem : gid ∈ g
    · simpa [applyOp, addGroup, hmem] using h
    · simp only [applyOp, addGroup, hmem, if_neg, not_false_iff]
      rw [List.nodup_append]
      refine ⟨h, List.nodup_singleton _, ?_⟩
      intro a ha hb
      rw [List.mem_singleton] at hb
      subst hb
      exact hmem ha
  | remove gid =>
    by_cases hmem : gid ∈ g
    · simpa [applyOp, removeGroup, hmem] using h.erase gid
    · simpa [applyOp, removeGroup, hmem] using h

theorem applyOps_nodup (ops : List GroupOp) :
    ∀ g : List Int, g.Nodup → (applyOps g ops).Nodup := by
  induction ops with
  | nil => intro g h; exact h
  | cons op ops ih =>
    intro g h
    exact ih (applyOp g op) (applyOp_nodup g op h)

theorem reschedule_job_store (x : AppState) : (reschedule_job x).store = x.store := by
  unfold reschedule_job
  split <;> rfl

-- ---------------- Claims ----------------

/-- C1: whenever the stored `enabled` flag is false, one invocation of
`send_to_all_groups` issues zero send calls of any kind (no send-text,
send-photo, copy, forward, or followup-buttons call) to any recipient,
whatever the recipient list and the rest of the configuration. -/
theorem claim_C1 (s : Store) (env : Env) (hdis : s.enabled = false) :
    (send_to_all_groups s env).1.filter isSendEvent = [] := by
  simp [send_to_all_groups, hdis]

/-- Witness for C1 at a concrete disabled store with a nonempty group list. -/
theorem claim_C1_witness :
    storeBase.enabled = false
    ∧ (send_to_all_groups storeBase envAllOk).1.filter isSendEvent = [] :=
  ⟨rfl, claim_C1 storeBase envAllOk rfl⟩

/-- C2: with recipients `[A, B, C]`, if B's first delivery call raises a
rate-limit error requiring an `n`-second wait, the cycle emits B's failed
call, then a sleep of `n + 1` seconds (the wait plus the safety margin),
then exactly one retry of B's delivery, and the events after that still
contain a delivery call to C; B receives exactly two delivery calls in the
whole cycle (no further retries), and the store — in particular the groups
list — is returned unchanged (B is not removed). -/
theorem claim_C2 (s : Store) (env : Env) (A B C : Int) (n : Nat)
    (hg : s.groups = [A, B, C]) (hen : s.enabled = true)
    (hAB : A ≠ B) (hAC : A ≠ C) (hBC : B ≠ C)
    (hrl : env B (deliveryKind s) 0 = Outcome.rateLimited n) :
    ∃ pre post,
      (send_to_all_groups s env).1
          = pre
            ++ [Event.send B (deliveryKind s) (deliveryKb s) (Outcome.rateLimited n),
                Event.sleep ((n + 1) * 10),
                Event.send B (deliveryKind s) (deliveryKb s) (env B (deliveryKind s) 1)]
            ++ post
        ∧ (∃ e ∈ post, isDeliveryTo C e = true)
        ∧ attemptsTo (send_to_all_groups s env).1 B = 2
        ∧ (send_to_all_groups s env).2 = s := by
  have hBA : B ≠ A := Ne.symm hAB
  have hCA : C ≠ A := Ne.symm hAC
  have hCB : C ≠ B := Ne.symm hBC
  have hKne := deliveryKind_ne_followup s
  have hdedup : dedupKeepFirst s.groups = [A, B, C] := by
    rw [hg]
    simp [dedupKeepFirst, dedupAux, hBA, hCA, hCB]
  have htr : (send_to_all_groups s env).1
      = handleRecipient s env A ++ (handleRecipient s env B ++ handleRecipient s env C) := by
    simp [send_to_all_groups, hen, hdedup]
  obtain ⟨tail1, h1eq, h1cnt, h1ev, _⟩ := attemptOf_fst s env B 1
  obtain ⟨tail0, h0eq, _, _, h0nil⟩ := attemptOf_fst s env B 0
  have htail0 : tail0 = [] := h0nil (by simp [hrl])
  have hsnd0 : (attemptOf s env B 0).2 = Outcome.rateLimited n := by
    rw [attemptOf_snd, hrl]
  have hB : handleRecipient s env B
      = Event.send B (deliveryKind s) (deliveryKb s) (Outcome.rateLimited n)
        :: Event.sleep ((n + 1) * 10)
        :: Event.send B (deliveryKind s) (deliveryKb s) (env B (deliveryKind s) 1)
        :: (tail1 ++ [Event.sleep 5]) := by
    unfold handleRecipient recipientLoop
    simp only [hsnd0]
    rw [h0eq, htail0, hrl, h1eq]
    simp
  refine ⟨handleRecipient s env A,
          tail1 ++ [Event.sleep 5] ++ handleRecipient s env C, ?_, ?_, ?_, ?_⟩
  · rw [htr, hB]
    simp
  · refine ⟨Event.send C (deliveryKind s) (deliveryKb s) (env C (deliveryKind s) 0),
            ?_, ?_⟩
    · exact List.mem_append_right _ (mem_handleRecipient_first s env C)
    · rw [isDeliveryTo_send C C _ _ _ hKne]
      simp
  · unfold attemptsTo
    rw [htr, List.countP_append, List.countP_append, hB]
    rw [handleRecipient_countP_ne s env A B hBA,
        handleRecipient_countP_ne s env C B hBC]
    simp only [List.countP_cons, List.countP_append, h1cnt]
    rw [isDeliveryTo_send B B _ _ _ hKne]
    simp [isDeliveryTo]
  · simp [send_to_all_groups, hen]

/-- Witness for C2: recipients `[1, 2, 3]`, recipient 2 rate-limited with
`retry_after = 5` on its first call. -/
theorem claim_C2_witness :
    storeC2.enabled = true
    ∧ envC2 2 (deliveryKind storeC2) 0 = Outcome.rateLimited 5
    ∧ ∃ pre post,
        (send_to_all_groups storeC2 envC2).1
            = pre
              ++ [Event.send 2 (deliveryKind storeC2) (deliveryKb storeC2)
                    (Outcome.rateLimited 5),
                  Event.sleep 60,
                  Event.send 2 (deliveryKind storeC2) (deliveryKb storeC2)
                    (envC2 2 (deliveryKind storeC2) 1)]
              ++ post
          ∧ (∃ e ∈ post, isDeliveryTo 3 e = true)
          ∧ attemptsTo (send_to_all_groups storeC2 envC2).1 2 = 2
          ∧ (send_to_all_groups storeC2 envC2).2 = storeC2 :=
  ⟨rfl, by decide,
   claim_C2 storeC2 envC2 1 2 3 5 rfl rfl (by decide) (by decide) (by decide)
     (by decide)⟩

/-- C3: in an enabled configuration, every recipient in the stored groups
list receives at least one delivery call during the cycle, whatever errors
the environment raises for any recipient — a per-recipient delivery error
never aborts the iteration over the remaining recipients or escapes the
cycle (the cycle is a total function of the store and the environment). -/
theorem claim_C3 (s : Store) (env : Env) (hen : s.enabled = true) :
    ∀ gid ∈ s.groups, 0 < attemptsTo (send_to_all_groups s env).1 gid := by
  intro gid hg
  have hmem : gid ∈ dedupKeepFirst s.groups := (mem_dedupKeepFirst gid _).mpr hg
  have he : Event.send gid (deliveryKind s) (deliveryKb s)
      (env gid (deliveryKind s) 0) ∈ (send_to_all_groups s env).1 := by
    have htr : (send_to_all_groups s env).1
        = (dedupKeepFirst s.groups).flatMap (handleRecipient s env) := by
      simp [send_to_all_groups, hen]
    rw [htr]
    exact List.mem_flatMap.mpr ⟨gid, hmem, mem_handleRecipient_first s env gid⟩
  unfold attemptsTo
  rw [List.countP_pos_iff]
  refine ⟨_, he, ?_⟩
  rw [isDeliveryTo_send gid gid _ _ _ (deliveryKind_ne_followup s)]
  simp

/-- Witness for C3: recipients `[1, 2]` where recipient 1's call raises a
permanent error; recipient 2 still gets a delivery call. -/
theorem claim_C3_witness :
    storeC3.enabled = true
    ∧ (2 : Int) ∈ storeC3.groups
    ∧ 0 < attemptsTo (send_to_all_groups storeC3 envPermA).1 2 :=
  ⟨rfl, by decide, claim_C3 storeC3 envPermA rfl 2 (by decide)⟩

/-- C4 (code bug): `template_has_keyboard` is persisted by `/import`,
`/attach` and `/detach` but never consulted by `send_to_all_groups`; with a
captured template flagged as already carrying its own keyboard and
configured buttons present, a copy-mode cycle still attaches the configured
layout to the copied message (`reply_markup=kb` on line 307), and a
forward-mode cycle still emits the followup invisible-text buttons message
(the `if kb:` on line 288 ignores the flag), contradicting the code's own
comment on line 287. -/
theorem claim_C4_code_behavior :
    storeC4.template_has_keyboard = true
    ∧ (send_to_all_groups storeC4 envAllOk).1
        = [Event.send 777 SendKind.copyMsg (some kbC4) Outcome.ok, Event.sleep 5]
    ∧ storeC4fwd.template_has_keyboard = true
    ∧ (send_to_all_groups storeC4fwd envAllOk).1
        = [Event.send 777 SendKind.forwardMsg none Outcome.ok,
           Event.send 777 SendKind.followupButtons (some kbC4) Outcome.ok,
           Event.sleep 5] := by
  refine ⟨rfl, ?_, rfl, ?_⟩ <;> rfl

/-- C5: converting a captured message entity to the stored dictionary form
(`_ent_to_dict`) and rebuilding entities from the store
(`_build_entities_from_store`) yields entities whose
(type, offset, length, url) tuples are identical to the originals'. -/
theorem claim_C5 (ents : List MessageEntity) :
    (_build_entities_from_store (ents.map _ent_to_dict)).map
        (fun e => (e.type, e.offset, e.length, e.url))
      = ents.map (fun e => (e.type, e.offset, e.length, e.url)) := by
  unfold _build_entities_from_store
  rw [List.map_map, List.map_map]
  rfl

/-- C6: changing the interval while the job is scheduled (enabled) removes
the pending `GLOBAL_POSTER` job and immediately re-registers exactly one
`GLOBAL_POSTER` job carrying the new interval with first-fire offset 0 —
nothing of the old schedule (the remainder of the old interval) survives. -/
theorem claim_C6 (st : AppState) (secs : Nat)
    (hsch : st.store.enabled = true) (hmin : 10 ≤ secs) :
    (set_interval_action st secs).jobs.filter (fun j => j.name = "GLOBAL_POSTER")
      = [{ name := "GLOBAL_POSTER", interval := secs, first := 0 }]
    ∧ (set_interval_action st secs).store.seconds = secs := by
  have hns : ¬ secs < 10 := by omega
  constructor
  · simp only [set_interval_action, if_neg hns, reschedule_job, hsch, if_pos]
    rw [List.filter_append, filter_gp_of_filter_ne]
    simp
  · simp [set_interval_action, hns, reschedule_job, hsch]

/-- Witness for C6: a scheduled app with a pending 900-second job, interval
changed to 60 seconds. -/
theorem claim_C6_witness :
    ({ store := { storeBase with enabled := true },
       jobs := [{ name := "GLOBAL_POSTER", interval := 900, first := 0 }] }
        : AppState).store.enabled = true
    ∧ 10 ≤ 60
    ∧ ((set_interval_action
          { store := { storeBase with enabled := true },
            jobs := [{ name := "GLOBAL_POSTER", interval := 900, first := 0 }] }
          60).jobs.filter (fun j => j.name = "GLOBAL_POSTER")
        = [{ name := "GLOBAL_POSTER", interval := 60, first := 0 }]
       ∧ (set_interval_action
            { store := { storeBase with enabled := true },
              jobs := [{ name := "GLOBAL_POSTER", interval := 900, first := 0 }] }
            60).store.seconds = 60) :=
  ⟨rfl, by omega,
   claim_C6
     { store := { storeBase with enabled := true },
       jobs := [{ name := "GLOBAL_POSTER", interval := 900, first := 0 }] }
     60 rfl (by omega)⟩

/-- C7: enabling broadcasting and then disabling it before the pending
cycle runs leaves no `GLOBAL_POSTER` job registered, leaves the enabled
flag false, and a cycle run against the resulting store issues no events at
all — so no send call can occur after the disable completes. -/
theorem claim_C7 (st : AppState) (env : Env) :
    (menu_disable (menu_enable st)).jobs.filter
        (fun j => j.name = "GLOBAL_POSTER") = []
    ∧ (menu_disable (menu_enable st)).store.enabled = false
    ∧ (send_to_all_groups (menu_disable (menu_enable st)).store env).1 = [] := by
  have he : (menu_disable (menu_enable st)).store.enabled = false := by
    rw [menu_disable, reschedule_job_store]
  refine ⟨?_, he, by simp [send_to_all_groups, he]⟩
  simp only [menu_disable, menu_enable, reschedule_job]
  rw [if_neg (by simp)]
  exact filter_gp_of_filter_ne _

/-- C8: within one cycle, the recipients actually iterated are the stored
groups list with duplicates collapsed: the iteration list has no
duplicates, contains exactly the stored identifiers, lists them in
first-occurrence (insertion) order of the stored list, and the cycle's
trace is exactly one per-recipient block per entry of that list, in that
order. -/
theorem claim_C8 (s : Store) (env : Env) (hen : s.enabled = true) :
    (dedupKeepFirst s.groups).Nodup
    ∧ (∀ a : Int, a ∈ dedupKeepFirst s.groups ↔ a ∈ s.groups)
    ∧ (dedupKeepFirst s.groups).Pairwise
        (fun a b => s.groups.indexOf a < s.groups.indexOf b)
    ∧ (send_to_all_groups s env).1
        = (dedupKeepFirst s.groups).flatMap (handleRecipient s env) :=
  ⟨nodup_dedupKeepFirst _, fun a => mem_dedupKeepFirst a _,
   pairwise_dedupKeepFirst _, by simp [send_to_all_groups, hen]⟩

/-- Witness for C8 at a store whose groups list `[5, 7, 5]` contains a
duplicate. -/
theorem claim_C8_witness :
    storeC8.enabled = true
    ∧ ((dedupKeepFirst storeC8.groups).Nodup
       ∧ (∀ a : Int, a ∈ dedupKeepFirst storeC8.groups ↔ a ∈ storeC8.groups)
       ∧ (dedupKeepFirst storeC8.groups).Pairwise
           (fun a b => storeC8.groups.indexOf a < storeC8.groups.indexOf b)
       ∧ (send_to_all_groups storeC8 envAllOk).1
           = (dedupKeepFirst storeC8.groups).flatMap
               (handleRecipient storeC8 envAllOk)) :=
  ⟨rfl, claim_C8 storeC8 envAllOk rfl⟩

/-- C9: adding a chat id already present leaves the groups list unchanged,
removing an absent chat id leaves it unchanged, and any sequence of
add/remove mutations preserves freedom from duplicates. -/
theorem claim_C9 (g : List Int) (gid : Int) (ops : List GroupOp)
    (hnd : g.Nodup) :
    (gid ∈ g → addGroup g gid = g)
    ∧ (gid ∉ g → removeGroup g gid = g)
    ∧ (applyOps g ops).Nodup := by
  refine ⟨fun h => by simp [addGroup, h], fun h => by simp [removeGroup, h], ?_⟩
  exact applyOps_nodup ops g hnd

/-- Witness for C9 on the duplicate-free list `[5, 7]`: re-adding 5 is a
no-op, removing the absent 9 is a no-op, and a mixed mutation sequence
keeps the list duplicate-free. -/
theorem claim_C9_witness :
    ([5, 7] : List Int).Nodup
    ∧ (((5 : Int) ∈ ([5, 7] : List Int) → addGroup [5, 7] 5 = [5, 7])
       ∧ ((5 : Int) ∉ ([5, 7] : List Int) → removeGroup [5, 7] 5 = [5, 7])
       ∧ (applyOps [5, 7]
            [GroupOp.add 5, GroupOp.add 9, GroupOp.remove 7]).Nodup)
    ∧ ((9 : Int) ∉ ([5, 7] : List Int) → removeGroup [5, 7] 9 = [5, 7]) :=
  ⟨by decide,
   claim_C9 [5, 7] 5 [GroupOp.add 5, GroupOp.add 9, GroupOp.remove 7] (by decide),
   (claim_C9 [5, 7] 9 [] (by decide)).2.1⟩

/-- C10: a broadcast cycle never mutates the settings store — for every
configuration, recipient list and environment behaviour (including
permanent errors), `send_to_all_groups` returns the store unchanged and its
trace contains no persistence write. -/
theorem claim_C10 (s : Store) (env : Env) :
    (send_to_all_groups s env).2 = s
    ∧ Event.persistWrite ∉ (send_to_all_groups s env).1 := by
  constructor
  · unfold send_to_all_groups
    split <;> rfl
  · intro hmem
    cases hs : s.enabled <;> simp only [send_to_all_groups, hs] at hmem
    · simp at hmem
    · obtain ⟨g, hgmem, he⟩ := List.mem_flatMap.mp hmem
      exact handleRecipient_events s env g _ he

end TelegramAuto
